import Mathlib

/-!
Shallow embedding of the chat relay server in `main.py` (Flask-SocketIO).

The server keeps one piece of mutable state, the dictionary `activeUsers`
mapping a socket id (sid) to `{username, connectedAt, room?}`.  Delivery of
outbound events goes through Flask-SocketIO room groups: on connect the
library places the client in a personal room named by its sid; `join_room r`
adds the sid to room `r` (without removing it from any other room);
`leave_room r` removes it from room `r` only; on disconnect the library
removes the sid from all rooms; `emit(..., room=r)` delivers to every sid
currently in room `r`, and `emit(..., broadcast=True)` to every connected
sid.  We model the registry as an insertion-ordered association list with
Python-dict update semantics, and the transport room membership as a list of
(room, sid) pairs; both are carried in `ServerState`.  Each socket handler
becomes a pure function from state and inbound event to new state plus the
list of emitted outbound events, each outbound event carrying the recipient
sid set computed at emit time.
-/

namespace ChommieChat

/-- The fixed room list `Config.CHAT_ROOMS` from `main.py`. -/
def CHAT_ROOMS : List String := ["General", "Academics", "Running Club", "Anime Club"]

/-- One entry of `activeUsers`: the dict holding the username and connect
time, with the optional room key (absent = `none`).  Timestamps are
abstracted to naturals supplied with each inbound event. -/
structure UserData where
  username : String
  connectedAt : Nat
  room : Option String
deriving DecidableEq, Repr

abbrev Sid := String

/-- Server state: the `activeUsers` dict (insertion-ordered, keys unique in
reachable states) and the Flask-SocketIO transport room membership, a set of
(room name, sid) pairs.  The personal room of a connected client is the
pair `(sid, sid)`. -/
structure ServerState where
  activeUsers : List (Sid × UserData)
  transport : List (String × Sid)
deriving DecidableEq, Repr

/-- Python dict `d[k] = v`: overwrite in place if the key is present
(keeping its position), otherwise append at the end. -/
def dictInsert (m : List (Sid × UserData)) (k : Sid) (v : UserData) :
    List (Sid × UserData) :=
  if m.any (fun p => p.1 == k) then
    m.map (fun p => if p.1 == k then (k, v) else p)
  else m ++ [(k, v)]

/-- Python `k in d`. -/
def dictContains (m : List (Sid × UserData)) (k : Sid) : Bool :=
  m.any (fun p => p.1 == k)

/-- Python `del d[k]`. -/
def dictRemove (m : List (Sid × UserData)) (k : Sid) : List (Sid × UserData) :=
  m.filter (fun p => p.1 != k)

/-- Python `d.get(k)` (first entry with that key). -/
def dictGet (m : List (Sid × UserData)) (k : Sid) : Option UserData :=
  (m.find? (fun p => p.1 == k)).map (fun p => p.2)

/-- Transport `join_room`: add the membership pair if not present. -/
def joinRoomT (t : List (String × Sid)) (room : String) (sid : Sid) :
    List (String × Sid) :=
  if (room, sid) ∈ t then t else t ++ [(room, sid)]

/-- Transport `leave_room`: remove that one membership pair. -/
def leaveRoomT (t : List (String × Sid)) (room : String) (sid : Sid) :
    List (String × Sid) :=
  t.filter (fun p => !(p.1 == room && p.2 == sid))

/-- Library cleanup on disconnect: the sid leaves every room, its personal
room included. -/
def dropSidT (t : List (String × Sid)) (sid : Sid) : List (String × Sid) :=
  t.filter (fun p => p.2 != sid)

/-- Recipients of `emit(..., room=room)`: every sid in the transport room. -/
def membersOf (t : List (String × Sid)) (room : String) : List Sid :=
  (t.filter (fun p => p.1 == room)).map (fun p => p.2)

/-- Recipients of `emit(..., broadcast=True)`: every connected sid,
i.e. every sid holding its personal room. -/
def connectedSids (t : List (String × Sid)) : List Sid :=
  (t.filter (fun p => p.1 == p.2)).map (fun p => p.2)

/-- The list comprehension collecting the username of every entry of
`activeUsers`, in insertion order. -/
def snapshotAllDisplayNames (m : List (Sid × UserData)) : List String :=
  m.map (fun p => p.2.username)

/-- Python `str.strip()` on ASCII whitespace (space, tab, newline, carriage
return, vertical tab, form feed). -/
def pyIsSpace (c : Char) : Bool :=
  c == ' ' || c == '\t' || c == '\n' || c == '\r' ||
    c == Char.ofNat 11 || c == Char.ofNat 12

/-- Python `s.strip()`. -/
def pyStrip (s : String) : String :=
  ⟨((s.data.dropWhile pyIsSpace).reverse.dropWhile pyIsSpace).reverse⟩

/-- Outbound events, each carrying the recipient sid set computed at emit
time.  `presenceUpdate` is the `activeUsers` broadcast; `roomStatus` is the
`status` event with its `type` subtype; `roomMessage` is the room `message`
event; `privateMessage` is the `privateMessage` event (fields `from`/`to`
are `sender`/`target` here). -/
inductive OutEvent where
  | presenceUpdate (users : List String) (recipients : List Sid)
  | roomStatus (msg : String) (subtype : String) (timestamp : Nat)
      (recipients : List Sid)
  | roomMessage (msg : String) (username : String) (room : String)
      (timestamp : Nat) (recipients : List Sid)
  | privateMessage (msg : String) (sender : String) (target : String)
      (timestamp : Nat) (recipients : List Sid)
deriving DecidableEq, Repr

/-- The recipient sid set attached to an outbound event. -/
def recipientsOf : OutEvent → List Sid
  | .presenceUpdate _ r => r
  | .roomStatus _ _ _ r => r
  | .roomMessage _ _ _ _ r => r
  | .privateMessage _ _ _ _ r => r

def isRoomMessage : OutEvent → Bool
  | .roomMessage _ _ _ _ _ => true
  | _ => false

def isRoomStatus : OutEvent → Bool
  | .roomStatus _ _ _ _ => true
  | _ => false

def isPresenceUpdate : OutEvent → Bool
  | .presenceUpdate _ _ => true
  | _ => false

/-- Inbound events.  `username` is the session display name the handler reads
from the session; the optional `message` fields mirror the dict lookups
with defaults: room (default General), type (default message), msg
(default empty) and target (no default). -/
inductive InEvent where
  | connect (sid : Sid) (username : String) (now : Nat)
  | disconnect (sid : Sid)
  | join (sid : Sid) (username : String) (room : String) (now : Nat)
  | leave (sid : Sid) (username : String) (room : String) (now : Nat)
  | message (sid : Sid) (username : String) (room : Option String)
      (msgType : Option String) (msg : Option String) (target : Option String)
      (now : Nat)
deriving DecidableEq, Repr

/-- The `connect` handler: the library first places the sid in its personal
room; the handler stores the new registry entry (overwriting any existing
entry for the sid — the code has no duplicate check) and broadcasts the
`activeUsers` snapshot to every connected sid. -/
def connect (st : ServerState) (sid : Sid) (username : String) (now : Nat) :
    ServerState × List OutEvent :=
  let t := joinRoomT st.transport sid sid
  let users := dictInsert st.activeUsers sid ⟨username, now, none⟩
  (⟨users, t⟩, [.presenceUpdate (snapshotAllDisplayNames users) (connectedSids t)])

/-- The `disconnect` handler: the transport has already removed the sid from
all rooms; if the sid is registered, the handler deletes it and broadcasts
the updated snapshot, otherwise it does nothing. -/
def disconnect (st : ServerState) (sid : Sid) : ServerState × List OutEvent :=
  let t := dropSidT st.transport sid
  if dictContains st.activeUsers sid then
    let users := dictRemove st.activeUsers sid
    (⟨users, t⟩, [.presenceUpdate (snapshotAllDisplayNames users) (connectedSids t)])
  else (⟨st.activeUsers, t⟩, [])

/-- The `onJoin` handler: an invalid room is dropped before any effect;
otherwise `join_room` runs first, then the registry room field is set and the
join `status` is emitted to the (new) transport room.  When the sid is not
registered, the room-field assignment raises `KeyError` after `join_room`,
so the transport has grown but nothing is emitted. -/
def onJoin (st : ServerState) (sid : Sid) (username : String) (room : String)
    (now : Nat) : ServerState × List OutEvent :=
  if room ∈ CHAT_ROOMS then
    let t := joinRoomT st.transport room sid
    if dictContains st.activeUsers sid then
      let users := st.activeUsers.map
        (fun p => if p.1 == sid then (p.1, { p.2 with room := some room }) else p)
      (⟨users, t⟩,
        [.roomStatus (username ++ " has joined the room.") "join" now
          (membersOf t room)])
    else (⟨st.activeUsers, t⟩, [])
  else (st, [])

/-- The `onLeave` handler: `leave_room` runs unconditionally, then the
registry room field is popped when the sid is registered, then the leave
`status` is emitted to the transport room — from which the leaver has already
been removed. -/
def onLeave (st : ServerState) (sid : Sid) (username : String) (room : String)
    (now : Nat) : ServerState × List OutEvent :=
  let t := leaveRoomT st.transport room sid
  let users :=
    if dictContains st.activeUsers sid then
      st.activeUsers.map
        (fun p => if p.1 == sid then (p.1, { p.2 with room := none }) else p)
    else st.activeUsers
  (⟨users, t⟩,
    [.roomStatus (username ++ " has left the room.") "leave" now (membersOf t room)])

/-- The `handleMessage` handler.  The room defaults to `"General"`, the type
to `"message"`, the text to `""` then stripped; empty text is dropped.  A
private message requires a truthy target, resolves it to the first registry
entry with that username, and is emitted to the personal room of that sid.
Any
other type is a room message: an invalid room is dropped, else the message
goes to the transport room. -/
def handleMessage (st : ServerState) (_sid : Sid) (username : String)
    (roomOpt : Option String) (typeOpt : Option String) (msgOpt : Option String)
    (targetOpt : Option String) (now : Nat) : ServerState × List OutEvent :=
  let room := roomOpt.getD "General"
  let msgType := typeOpt.getD "message"
  let message := pyStrip (msgOpt.getD "")
  if message == "" then (st, [])
  else if msgType == "private" then
    match targetOpt with
    | none => (st, [])
    | some target =>
      if target == "" then (st, [])
      else
        match st.activeUsers.find? (fun p => p.2.username == target) with
        | some p =>
          (st, [.privateMessage message username target now
                  (membersOf st.transport p.1)])
        | none => (st, [])
  else
    if room ∈ CHAT_ROOMS then
      (st, [.roomMessage message username room now (membersOf st.transport room)])
    else (st, [])

/-- Dispatch of one inbound event to its handler. -/
def step (st : ServerState) : InEvent → ServerState × List OutEvent
  | .connect sid u now => connect st sid u now
  | .disconnect sid => disconnect st sid
  | .join sid u room now => onJoin st sid u room now
  | .leave sid u room now => onLeave st sid u room now
  | .message sid u r ty m tg now => handleMessage st sid u r ty m tg now

/-- Run a sequence of inbound events, collecting all emitted events. -/
def run (st : ServerState) : List InEvent → ServerState × List OutEvent
  | [] => (st, [])
  | e :: tr =>
    let s1 := step st e
    let s2 := run s1.1 tr
    (s2.1, s1.2 ++ s2.2)

/-- The state at process start: no registered users, no room memberships. -/
def initialState : ServerState := ⟨[], []⟩

/-- A registry room field, when set, names a configured room. -/
def validRoomOpt : Option String → Prop
  | none => True
  | some r => r ∈ CHAT_ROOMS

instance : DecidablePred validRoomOpt := fun o =>
  match o with
  | none => isTrue trivial
  | some r => inferInstanceAs (Decidable (r ∈ CHAT_ROOMS))

/-- Registry invariant of the spec's data model: every stored room field
names a room of the Room Directory. -/
def RoomInv (st : ServerState) : Prop :=
  ∀ p ∈ st.activeUsers, validRoomOpt p.2.room

instance (st : ServerState) : Decidable (RoomInv st) :=
  inferInstanceAs (Decidable (∀ p ∈ st.activeUsers, validRoomOpt p.2.room))

/-- A registry room field, when set, is backed by the matching transport room
membership of that sid. -/
def roomBackedBy (t : List (String × Sid)) (sid : Sid) : Option String → Prop
  | none => True
  | some r => (r, sid) ∈ t

instance (t : List (String × Sid)) (sid : Sid) :
    DecidablePred (roomBackedBy t sid) := fun o =>
  match o with
  | none => isTrue trivial
  | some r => inferInstanceAs (Decidable ((r, sid) ∈ t))

/-- State invariant holding in every reachable state: transport pairs are
either configured rooms or personal rooms; every registered sid holds its
personal room; every stored registry room field is matched by a transport
membership; the transport list has no duplicate pairs. -/
def Inv (st : ServerState) : Prop :=
  (∀ p ∈ st.transport, p.1 ∈ CHAT_ROOMS ∨ p.1 = p.2) ∧
  (∀ p ∈ st.activeUsers, (p.1, p.1) ∈ st.transport) ∧
  (∀ p ∈ st.activeUsers, roomBackedBy st.transport p.1 p.2.room) ∧
  st.transport.Nodup

instance (st : ServerState) : Decidable (Inv st) :=
  inferInstanceAs (Decidable (_ ∧ _ ∧ _ ∧ _))

/-- Every Connect event in the trace arrives with an id not currently
registered (the guarantee correct transport use provides: socket ids are
unique per live connection). Only connect/disconnect events are allowed. -/
def freshConnects : ServerState → List InEvent → Bool
  | _, [] => true
  | st, InEvent.connect sid u now :: tr =>
      !dictContains st.activeUsers sid &&
        freshConnects (step st (InEvent.connect sid u now)).1 tr
  | st, InEvent.disconnect sid :: tr =>
      freshConnects (step st (InEvent.disconnect sid)).1 tr
  | _, _ :: _ => false

/-- Number of successful unregisters along a trace: Disconnect events whose
sid is registered at that point. -/
def succUnregs : ServerState → List InEvent → Nat
  | _, [] => 0
  | st, e :: tr =>
      (match e with
       | InEvent.disconnect sid => if dictContains st.activeUsers sid then 1 else 0
       | _ => 0) + succUnregs (step st e).1 tr

/-- Number of Connect events in a trace (every Connect in the code runs the
registry insert and the broadcast; none fails). -/
def numConnects : List InEvent → Nat
  | [] => 0
  | InEvent.connect _ _ _ :: tr => 1 + numConnects tr
  | _ :: tr => numConnects tr

/-- A two-user state as reached by two Connect events; used by concrete
witnesses. -/
def stAliceBob : ServerState :=
  ⟨[("s1", ⟨"Alice", 0, none⟩), ("s2", ⟨"Bob", 1, none⟩)],
   [("s1", "s1"), ("s2", "s2")]⟩

/-- Trace in which Bob joins General and then joins Academics without an
intervening Leave: his transport membership of General persists. -/
def trSwitch : List InEvent :=
  [.connect "s1" "Alice" 0, .connect "s2" "Bob" 1,
   .join "s1" "Alice" "General" 2, .join "s2" "Bob" "General" 3,
   .join "s2" "Bob" "Academics" 4]

/-- Trace with two Connect events for the same socket id. -/
def trDouble : List InEvent := [.connect "s" "A" 0, .connect "s" "B" 1]

/-- State in which socket id `s` is registered with name A and room
General. -/
def stDup : ServerState :=
  (run initialState [.connect "s" "A" 0, .join "s" "A" "General" 1]).1

/-- Connect/disconnect trace with fresh ids; used by concrete witnesses. -/
def trPresence : List InEvent :=
  [.connect "a" "A" 0, .connect "b" "B" 1, .disconnect "a"]

/-! ## Helper lemmas -/

theorem mem_membersOf {t : List (String × Sid)} {room : String} {s : Sid} :
    s ∈ membersOf t room ↔ (room, s) ∈ t := by
  simp only [membersOf, List.mem_map, List.mem_filter, beq_iff_eq]
  constructor
  · rintro ⟨⟨r, x⟩, ⟨hmem, hr⟩, hx⟩
    simp only at hr hx
    subst hr; subst hx; exact hmem
  · intro h
    exact ⟨(room, s), ⟨h, rfl⟩, rfl⟩

theorem handleMessage_fst (st : ServerState) (sid : Sid) (u : String)
    (roomOpt typeOpt msgOpt targetOpt : Option String) (now : Nat) :
    (handleMessage st sid u roomOpt typeOpt msgOpt targetOpt now).1 = st := by
  unfold handleMessage
  dsimp only
  repeat' split <;> try rfl

/-! ## C9: empty or all-whitespace message text -/

/-- C9: a Message event whose text is empty or all-whitespace after
trimming produces no outbound event of any kind and leaves the state (the
registry in particular) unchanged, whatever the message kind. -/
theorem empty_message_drops (st : ServerState) (sid : Sid) (u : String)
    (roomOpt typeOpt msgOpt targetOpt : Option String) (now : Nat)
    (h : pyStrip (msgOpt.getD "") = "") :
    step st (.message sid u roomOpt typeOpt msgOpt targetOpt now) = (st, []) := by
  simp [step, handleMessage, h]

/-- Witness for C9 at a concrete all-whitespace text. -/
theorem empty_message_drops_witness :
    pyStrip ((some "  \t ").getD "") = "" ∧
    step initialState (.message "s1" "Alice" (some "General") none (some "  \t ") none 3) =
      (initialState, []) :=
  ⟨by decide,
   empty_message_drops initialState "s1" "Alice" (some "General") none
     (some "  \t ") none 3 (by decide)⟩

/-! ## C10: missing room field defaults to General -/

/-- C10: a Message event carrying no room field defaults the room to
`"General"`, which is a member of `CHAT_ROOMS`, so a non-private message
with non-empty trimmed text is delivered as exactly one RoomMessage to the
General room (its transport membership) rather than being dropped. -/
theorem message_defaults_to_general (st : ServerState) (sid : Sid) (u : String)
    (typeOpt msgOpt targetOpt : Option String) (now : Nat)
    (hty : typeOpt ≠ some "private")
    (hmsg : pyStrip (msgOpt.getD "") ≠ "") :
    "General" ∈ CHAT_ROOMS ∧
    step st (.message sid u none typeOpt msgOpt targetOpt now) =
      (st, [.roomMessage (pyStrip (msgOpt.getD "")) u "General" now
              (membersOf st.transport "General")]) := by
  refine ⟨by decide, ?_⟩
  have hty2 : (typeOpt.getD "message" == "private") = false := by
    cases typeOpt with
    | none => decide
    | some ty =>
      simp only [Option.getD, beq_eq_false_iff_ne, ne_eq]
      intro hcon
      exact hty (by rw [hcon])
  simp [step, handleMessage, hmsg, hty2]
  decide

/-- Witness for C10 at a concrete message without a room field. -/
theorem message_defaults_to_general_witness :
    (none ≠ some "private" ∧ pyStrip ((some " hi ").getD "") ≠ "") ∧
    ("General" ∈ CHAT_ROOMS ∧
     step ⟨[("s1", ⟨"Alice", 0, some "General"⟩)], [("s1", "s1"), ("General", "s1")]⟩
       (.message "s1" "Alice" none none (some " hi ") none 4) =
      (⟨[("s1", ⟨"Alice", 0, some "General"⟩)], [("s1", "s1"), ("General", "s1")]⟩,
       [.roomMessage "hi" "Alice" "General" 4 ["s1"]])) := by
  refine ⟨⟨by decide, by decide⟩, ?_⟩
  have h := message_defaults_to_general
    ⟨[("s1", ⟨"Alice", 0, some "General"⟩)], [("s1", "s1"), ("General", "s1")]⟩
    "s1" "Alice" none (some " hi ") none 4 (by decide) (by decide)
  exact ⟨h.1, by rw [h.2]; decide⟩

/-! ## C8: invalid room is silently dropped -/

/-- C8: a Join naming a room outside `CHAT_ROOMS` is a complete no-op (no
event, state unchanged), and a Message naming such a room leaves the state
unchanged and emits no RoomStatus and no RoomMessage event. -/
theorem invalid_room_drops (st : ServerState) (sid : Sid) (u room : String)
    (typeOpt msgOpt targetOpt : Option String) (now : Nat)
    (h : room ∉ CHAT_ROOMS) :
    step st (.join sid u room now) = (st, []) ∧
    (step st (.message sid u (some room) typeOpt msgOpt targetOpt now)).1 = st ∧
    ∀ ev ∈ (step st (.message sid u (some room) typeOpt msgOpt targetOpt now)).2,
      isRoomStatus ev = false ∧ isRoomMessage ev = false := by
  refine ⟨by simp [step, onJoin, h],
    handleMessage_fst st sid u (some room) typeOpt msgOpt targetOpt now, ?_⟩
  show ∀ ev ∈ (handleMessage st sid u (some room) typeOpt msgOpt targetOpt now).2, _
  unfold handleMessage
  dsimp only [Option.getD]
  repeat' split
  all_goals simp_all [isRoomStatus, isRoomMessage]

/-- Witness for C8 at a concrete invalid room name. -/
theorem invalid_room_drops_witness :
    "Lounge" ∉ CHAT_ROOMS ∧
    step initialState (.join "s1" "Alice" "Lounge" 2) = (initialState, []) ∧
    (step initialState (.message "s1" "Alice" (some "Lounge") none (some "hi") none 3)).1 =
      initialState ∧
    ∀ ev ∈ (step initialState (.message "s1" "Alice" (some "Lounge") none (some "hi") none 3)).2,
      isRoomStatus ev = false ∧ isRoomMessage ev = false := by
  have h := invalid_room_drops initialState "s1" "Alice" "Lounge" none (some "hi") none 3
    (by decide)
  exact ⟨by decide, h.1, h.2.1, h.2.2⟩

/-! ## C7: disconnect is idempotent -/

theorem dictContains_dictRemove (m : List (Sid × UserData)) (k : Sid) :
    dictContains (dictRemove m k) k = false := by
  simp only [dictContains, dictRemove, List.any_eq_false, List.mem_filter,
    bne_iff_ne, ne_eq, beq_iff_eq]
  rintro ⟨s, ud⟩ ⟨_, hne⟩
  simpa using hne

/-- C7: a Disconnect for an id that is not registered emits no event and
leaves the registry unchanged; consequently a second Disconnect for the same
id (right after a first one) emits nothing. -/
theorem disconnect_idempotent (st : ServerState) (sid : Sid) :
    (dictContains st.activeUsers sid = false →
      (step st (.disconnect sid)).2 = [] ∧
      (step st (.disconnect sid)).1.activeUsers = st.activeUsers) ∧
    (step (step st (.disconnect sid)).1 (.disconnect sid)).2 = [] := by
  constructor
  · intro h
    simp [step, disconnect, h]
  · show (disconnect (disconnect st sid).1 sid).2 = []
    unfold disconnect
    by_cases h : dictContains st.activeUsers sid = true
    · simp only [h, if_true]
      simp [dictContains_dictRemove]
    · simp only [Bool.not_eq_true] at h
      simp [h]

/-- Witness for C7: a connection connects, disconnects, and the second
disconnect is a silent no-op. -/
theorem disconnect_idempotent_witness :
    dictContains (run initialState [.connect "s1" "Alice" 0, .disconnect "s1"]).1.activeUsers
      "s1" = false ∧
    ((step (run initialState [.connect "s1" "Alice" 0, .disconnect "s1"]).1
        (.disconnect "s1")).2 = [] ∧
     (step (run initialState [.connect "s1" "Alice" 0, .disconnect "s1"]).1
        (.disconnect "s1")).1.activeUsers =
       (run initialState [.connect "s1" "Alice" 0, .disconnect "s1"]).1.activeUsers) :=
  ⟨by decide,
   (disconnect_idempotent
      (run initialState [.connect "s1" "Alice" 0, .disconnect "s1"]).1 "s1").1
     (by decide)⟩

/-! ## C3: leave status is emitted after the leaver is removed -/

theorem not_mem_membersOf_leaveRoomT (t : List (String × Sid)) (room : String)
    (sid : Sid) : sid ∉ membersOf (leaveRoomT t room sid) room := by
  intro hmem
  rw [mem_membersOf] at hmem
  simp only [leaveRoomT, List.mem_filter] at hmem
  simp at hmem

theorem dictGet_mapUpdate (m : List (Sid × UserData)) (k : Sid)
    (f : UserData → UserData) :
    dictGet (m.map (fun p => if p.1 == k then (p.1, f p.2) else p)) k =
      (dictGet m k).map f := by
  induction m with
  | nil => rfl
  | cons p m ih =>
    simp only [List.map_cons]
    by_cases h : (p.1 == k) = true
    · rw [if_pos h]
      simp [dictGet, List.find?, h]
    · rw [if_neg h]
      have hb : (p.1 == k) = false := by simpa using h
      simp only [dictGet, List.find?, hb] at ih ⊢
      exact ih

theorem dictGet_eq_none_of_not_contains (m : List (Sid × UserData)) (k : Sid)
    (h : dictContains m k = false) : dictGet m k = none := by
  simp only [dictContains, List.any_eq_false] at h
  unfold dictGet
  rw [List.find?_eq_none.mpr h]
  rfl

/-- C3: the Leave handler emits exactly one leave RoomStatus event, whose
recipient set is the membership of the room in the post-state — computed after
the leaver has been removed from the transport room and after its registry
room field has been cleared — so the leaving connection is never among the
recipients, only the connections remaining in the room are. -/
theorem leave_status_excludes_leaver (st : ServerState) (sid : Sid)
    (u room : String) (now : Nat) :
    (step st (.leave sid u room now)).2 =
      [.roomStatus (u ++ " has left the room.") "leave" now
        (membersOf (step st (.leave sid u room now)).1.transport room)] ∧
    sid ∉ membersOf (step st (.leave sid u room now)).1.transport room ∧
    dictGet (step st (.leave sid u room now)).1.activeUsers sid =
      (dictGet st.activeUsers sid).map (fun ud => { ud with room := none }) := by
  refine ⟨rfl, ?_, ?_⟩
  · show sid ∉ membersOf (leaveRoomT st.transport room sid) room
    exact not_mem_membersOf_leaveRoomT st.transport room sid
  · show dictGet (if dictContains st.activeUsers sid = true then _ else _) sid = _
    by_cases h : dictContains st.activeUsers sid = true
    · rw [if_pos h]
      exact dictGet_mapUpdate st.activeUsers sid (fun ud => { ud with room := none })
    · rw [if_neg h]
      rw [dictGet_eq_none_of_not_contains st.activeUsers sid (by simpa using h)]
      rfl

/-! ## C4: room fields always name configured rooms -/

theorem mem_dictInsert {m : List (Sid × UserData)} {k : Sid} {v : UserData}
    {p : Sid × UserData} (hp : p ∈ dictInsert m k v) : p ∈ m ∨ p = (k, v) := by
  unfold dictInsert at hp
  split at hp
  · rcases List.mem_map.mp hp with ⟨q, hq, he⟩
    by_cases h : (q.1 == k) = true
    · right; rw [if_pos h] at he; exact he.symm
    · left; rw [if_neg h] at he; rw [← he]; exact hq
  · rcases List.mem_append.mp hp with h | h
    · left; exact h
    · right; simpa using h

theorem mem_mapUpdate {m : List (Sid × UserData)} {k : Sid}
    {f : UserData → UserData} {p : Sid × UserData}
    (hp : p ∈ m.map (fun q => if q.1 == k then (q.1, f q.2) else q)) :
    p ∈ m ∨ ∃ q ∈ m, p = (q.1, f q.2) := by
  rcases List.mem_map.mp hp with ⟨q, hq, he⟩
  by_cases h : (q.1 == k) = true
  · right; exact ⟨q, hq, by rw [← he, if_pos h]⟩
  · left; rw [← he, if_neg h]; exact hq

/-- C4: every operation (connect, disconnect, join, leave, message)
preserves the registry invariant that a set room field names a member of
`CHAT_ROOMS`. -/
theorem registry_room_always_valid (st : ServerState) (e : InEvent)
    (h : RoomInv st) : RoomInv (step st e).1 := by
  cases e with
  | connect sid u now =>
    intro p hp
    rcases mem_dictInsert hp with hold | hnew
    · exact h p hold
    · rw [hnew]; trivial
  | disconnect sid =>
    intro p hp
    simp only [step, disconnect] at hp
    split at hp
    · exact h p (List.mem_filter.mp hp).1
    · exact h p hp
  | join sid u room now =>
    intro p hp
    simp only [step, onJoin] at hp
    split at hp
    · rename_i hr
      split at hp
      · dsimp only at hp
        rcases @mem_mapUpdate st.activeUsers sid
            (fun ud => { ud with room := some room }) p hp with hold | ⟨q, hq, he⟩
        · exact h p hold
        · rw [he]; exact hr
      · exact h p hp
    · exact h p hp
  | leave sid u room now =>
    intro p hp
    simp only [step, onLeave] at hp
    split at hp
    · rcases @mem_mapUpdate st.activeUsers sid
          (fun ud => { ud with room := none }) p hp with hold | ⟨q, hq, he⟩
      · exact h p hold
      · rw [he]; trivial
    · exact h p hp
  | message sid u r ty m tg now =>
    intro p hp
    rw [show (step st (.message sid u r ty m tg now)).1 =
      (handleMessage st sid u r ty m tg now).1 from rfl,
      handleMessage_fst st sid u r ty m tg now] at hp
    exact h p hp

/-- Witness for C4: the invariant holds in a concrete two-user state and is
preserved by a concrete Join. -/
theorem registry_room_always_valid_witness :
    RoomInv ⟨[("s1", ⟨"Alice", 0, some "General"⟩), ("s2", ⟨"Bob", 1, none⟩)],
      [("s1", "s1"), ("s2", "s2"), ("General", "s1")]⟩ ∧
    RoomInv (step ⟨[("s1", ⟨"Alice", 0, some "General"⟩), ("s2", ⟨"Bob", 1, none⟩)],
      [("s1", "s1"), ("s2", "s2"), ("General", "s1")]⟩
      (.join "s2" "Bob" "Academics" 2)).1 :=
  ⟨by decide,
   registry_room_always_valid
     ⟨[("s1", ⟨"Alice", 0, some "General"⟩), ("s2", ⟨"Bob", 1, none⟩)],
      [("s1", "s1"), ("s2", "s2"), ("General", "s1")]⟩
     (.join "s2" "Bob" "Academics" 2) (by decide)⟩

/-! ## C6: private message exclusivity -/

/-- C6: a private Message with a non-empty target display name that matches
a registered connection is delivered as exactly one PrivateMessage event
whose recipient set is exactly the first matching connection (in registry
order); no RoomMessage event is emitted and the sender (when not itself the
target connection) receives nothing.  `tsid ∉ CHAT_ROOMS` records that a
transport socket id never collides with a configured room name. -/
theorem private_message_exclusive (st : ServerState) (sid : Sid) (u : String)
    (roomOpt msgOpt : Option String) (target : String) (tsid : Sid)
    (ud : UserData) (now : Nat)
    (hinv : Inv st)
    (hmsg : pyStrip (msgOpt.getD "") ≠ "")
    (htgt : target ≠ "")
    (hfind : st.activeUsers.find? (fun p => p.2.username == target) = some (tsid, ud))
    (hsid : tsid ∉ CHAT_ROOMS) :
    step st (.message sid u roomOpt (some "private") msgOpt (some target) now) =
      (st, [.privateMessage (pyStrip (msgOpt.getD "")) u target now
              (membersOf st.transport tsid)]) ∧
    tsid ∈ membersOf st.transport tsid ∧
    (∀ s ∈ membersOf st.transport tsid, s = tsid) ∧
    (∀ ev ∈ (step st (.message sid u roomOpt (some "private") msgOpt
        (some target) now)).2, isRoomMessage ev = false) ∧
    (sid ≠ tsid → sid ∉ membersOf st.transport tsid) := by
  have hout : step st (.message sid u roomOpt (some "private") msgOpt
      (some target) now) =
      (st, [.privateMessage (pyStrip (msgOpt.getD "")) u target now
              (membersOf st.transport tsid)]) := by
    simp [step, handleMessage, hmsg, htgt, hfind]
  have hmem : (tsid, ud) ∈ st.activeUsers := List.mem_of_find?_eq_some hfind
  have hpers : (tsid, tsid) ∈ st.transport := hinv.2.1 (tsid, ud) hmem
  have honly : ∀ s ∈ membersOf st.transport tsid, s = tsid := by
    intro s hs
    rcases hinv.1 (tsid, s) (mem_membersOf.mp hs) with hc | he
    · exact absurd hc hsid
    · exact he.symm
  refine ⟨hout, mem_membersOf.mpr hpers, honly, ?_, ?_⟩
  · rw [hout]
    intro ev hev
    simp only [List.mem_singleton] at hev
    rw [hev]
    rfl
  · intro hne hsmem
    exact hne (honly sid hsmem)

/-- Witness for C6: Alice sends Bob a private message in a concrete
two-user state. -/
theorem private_message_exclusive_witness :
    (Inv stAliceBob ∧ pyStrip ((some "hey").getD "") ≠ "" ∧
      ("Bob" : String) ≠ "" ∧
      stAliceBob.activeUsers.find? (fun p => p.2.username == "Bob") =
        some ("s2", ⟨"Bob", 1, none⟩) ∧
      "s2" ∉ CHAT_ROOMS) ∧
    step stAliceBob (.message "s1" "Alice" none (some "private") (some "hey")
        (some "Bob") 9) =
      (stAliceBob, [.privateMessage "hey" "Alice" "Bob" 9
        (membersOf stAliceBob.transport "s2")]) :=
  ⟨⟨by decide, by decide, by decide, by decide, by decide⟩,
   (private_message_exclusive stAliceBob "s1" "Alice" none (some "hey") "Bob"
      "s2" ⟨"Bob", 1, none⟩ 9 (by decide) (by decide) (by decide) (by decide)
      (by decide)).1⟩

/-! ## C1: room message recipient set -/

/-- Counterexample to C1 as stated: after `trSwitch`, connection `s2` has
registry room "Academics" (its last Join was to Academics), yet it is among
the recipients of the RoomMessage sent to "General", because Join never
removes the transport membership of the old room. -/
theorem room_message_reaches_switched_connection :
    dictGet (run initialState trSwitch).1.activeUsers "s2" =
      some ⟨"Bob", 1, some "Academics"⟩ ∧
    (step (run initialState trSwitch).1
      (.message "s1" "Alice" (some "General") none (some "hi") none 5)).2 =
      [.roomMessage "hi" "Alice" "General" 5 ["s1", "s2"]] ∧
    "s2" ∈ recipientsOf (.roomMessage "hi" "Alice" "General" 5 ["s1", "s2"]) ∧
    (some "Academics" : Option String) ≠ some "General" := by
  decide

/-- C1 (amended): a room Message with non-empty trimmed text and a valid
room emits exactly one RoomMessage event, whose recipient set is exactly
the transport membership of that room — every connection that has joined
the room and not since left it or disconnected, which under the state
invariant includes the sender whenever the registry room of the sender is that
room (no echo suppression), but may also include a connection whose last
Join was to a different room. -/
theorem room_message_recipients (st : ServerState) (sid : Sid) (u : String)
    (roomOpt typeOpt msgOpt targetOpt : Option String) (now : Nat)
    (hty : typeOpt ≠ some "private")
    (hmsg : pyStrip (msgOpt.getD "") ≠ "")
    (hroom : roomOpt.getD "General" ∈ CHAT_ROOMS) :
    step st (.message sid u roomOpt typeOpt msgOpt targetOpt now) =
      (st, [.roomMessage (pyStrip (msgOpt.getD "")) u (roomOpt.getD "General")
              now (membersOf st.transport (roomOpt.getD "General"))]) ∧
    (∀ s, s ∈ membersOf st.transport (roomOpt.getD "General") ↔
      (roomOpt.getD "General", s) ∈ st.transport) ∧
    (Inv st → ∀ p ∈ st.activeUsers, p.1 = sid →
      p.2.room = some (roomOpt.getD "General") →
      sid ∈ membersOf st.transport (roomOpt.getD "General")) := by
  have hty2 : (typeOpt.getD "message" == "private") = false := by
    cases typeOpt with
    | none => decide
    | some ty =>
      simp only [Option.getD, beq_eq_false_iff_ne, ne_eq]
      intro hcon
      exact hty (by rw [hcon])
  refine ⟨by simp [step, handleMessage, hmsg, hty2, hroom], fun s => mem_membersOf, ?_⟩
  intro hinv p hp hps hr
  have hback := hinv.2.2.1 p hp
  rw [hr] at hback
  rw [← hps]
  exact mem_membersOf.mpr hback

/-- Witness for C1 (amended) on the concrete `trSwitch` state. -/
theorem room_message_recipients_witness :
    ((none : Option String) ≠ some "private" ∧
      pyStrip ((some "hi").getD "") ≠ "" ∧
      ((some "General" : Option String).getD "General") ∈ CHAT_ROOMS) ∧
    step (run initialState trSwitch).1
        (.message "s1" "Alice" (some "General") none (some "hi") none 5) =
      ((run initialState trSwitch).1,
       [.roomMessage "hi" "Alice" "General" 5
          (membersOf (run initialState trSwitch).1.transport "General")]) :=
  ⟨⟨by decide, by decide, by decide⟩,
   (room_message_recipients (run initialState trSwitch).1 "s1" "Alice"
      (some "General") none (some "hi") none 5 (by decide) (by decide)
      (by decide)).1⟩

/-! ## C2: connect with an already-registered id -/

/-- Counterexample to C2 as stated: with id `s` already registered, a
second Connect does not fail — it replaces the registry entry (new display
name, new connect time, the room field dropped) and broadcasts a
PresenceUpdate. -/
theorem duplicate_connect_replaces :
    dictContains stDup.activeUsers "s" = true ∧
    stDup.activeUsers = [("s", ⟨"A", 0, some "General"⟩)] ∧
    step stDup (.connect "s" "B" 5) =
      (⟨[("s", ⟨"B", 5, none⟩)], [("s", "s"), ("General", "s")]⟩,
       [.presenceUpdate ["B"] ["s"]]) ∧
    (step stDup (.connect "s" "B" 5)).2 ≠ [] := by
  decide

/-- C2 (amended): a Connect whose id is already registered succeeds by
overwriting the existing entry in place (same key position, new display
name and connect time, no room field), leaves the registry size unchanged,
and broadcasts a PresenceUpdate — the code has no DuplicateConnection
failure. -/
theorem connect_overwrites_existing (st : ServerState) (sid : Sid)
    (u : String) (now : Nat) (h : dictContains st.activeUsers sid = true) :
    (step st (.connect sid u now)).1.activeUsers =
      st.activeUsers.map
        (fun p => if p.1 == sid then (sid, ⟨u, now, none⟩) else p) ∧
    (step st (.connect sid u now)).1.activeUsers.length =
      st.activeUsers.length ∧
    (step st (.connect sid u now)).2 =
      [.presenceUpdate
        (snapshotAllDisplayNames (step st (.connect sid u now)).1.activeUsers)
        (connectedSids (joinRoomT st.transport sid sid))] := by
  have hb : st.activeUsers.any (fun p => p.1 == sid) = true := h
  refine ⟨?_, ?_, rfl⟩
  · show dictInsert st.activeUsers sid ⟨u, now, none⟩ = _
    unfold dictInsert
    rw [if_pos hb]
  · show (dictInsert st.activeUsers sid ⟨u, now, none⟩).length = _
    unfold dictInsert
    rw [if_pos hb, List.length_map]

/-- Witness for C2 (amended) at the concrete duplicate id. -/
theorem connect_overwrites_existing_witness :
    dictContains stDup.activeUsers "s" = true ∧
    (step stDup (.connect "s" "B" 5)).1.activeUsers =
      stDup.activeUsers.map
        (fun p => if p.1 == "s" then ("s", ⟨"B", 5, none⟩) else p) :=
  ⟨by decide, (connect_overwrites_existing stDup "s" "B" 5 (by decide)).1⟩

/-! ## C5: presence consistency -/

theorem length_dictInsert_fresh (m : List (Sid × UserData)) (k : Sid)
    (v : UserData) (h : dictContains m k = false) :
    (dictInsert m k v).length = m.length + 1 := by
  unfold dictInsert
  rw [if_neg (by simp [show m.any (fun p => p.1 == k) = false from h])]
  simp

theorem keys_dictInsert_fresh (m : List (Sid × UserData)) (k : Sid)
    (v : UserData) (h : dictContains m k = false) :
    (dictInsert m k v).map Prod.fst = m.map Prod.fst ++ [k] := by
  unfold dictInsert
  rw [if_neg (by simp [show m.any (fun p => p.1 == k) = false from h])]
  simp

theorem length_dictRemove (m : List (Sid × UserData)) (k : Sid)
    (h : dictContains m k = true) (hnd : (m.map Prod.fst).Nodup) :
    (dictRemove m k).length + 1 = m.length := by
  induction m with
  | nil => simp [dictContains] at h
  | cons p m ih =>
    simp only [List.map_cons, List.nodup_cons] at hnd
    by_cases hp : (p.1 == k) = true
    · have hk : p.1 = k := by simpa using hp
      have hrest : List.filter (fun q => q.1 != k) m = m := by
        apply List.filter_eq_self.mpr
        intro q hq
        simp only [bne_iff_ne, ne_eq]
        intro hqk
        exact hnd.1 (by rw [hk, ← hqk]; exact List.mem_map_of_mem Prod.fst hq)
      have hfalse : (p.1 != k) = false := by simp [hk]
      unfold dictRemove
      rw [List.filter_cons, hfalse]
      simp [hrest]
    · have hrest : dictContains m k = true := by
        simp only [dictContains, List.any_cons, hp, Bool.false_or] at h
        exact h
      have htrue : (p.1 != k) = true := by simpa using hp
      unfold dictRemove at ih ⊢
      rw [List.filter_cons, htrue]
      simp only [if_true, List.length_cons]
      rw [← ih hrest hnd.2]

theorem sid_not_mem_keys (m : List (Sid × UserData)) (k : Sid)
    (h : dictContains m k = false) : k ∉ m.map Prod.fst := by
  simp only [dictContains, List.any_eq_false] at h
  intro hmem
  rcases List.mem_map.mp hmem with ⟨p, hp, hps⟩
  exact (h p hp) (by simpa using hps)

theorem nodupKeys_connect (st : ServerState) (sid : Sid) (u : String)
    (now : Nat) (h : dictContains st.activeUsers sid = false)
    (hnd : (st.activeUsers.map Prod.fst).Nodup) :
    ((step st (.connect sid u now)).1.activeUsers.map Prod.fst).Nodup := by
  show ((dictInsert st.activeUsers sid ⟨u, now, none⟩).map Prod.fst).Nodup
  rw [keys_dictInsert_fresh _ _ _ h]
  simp [List.nodup_append, hnd, sid_not_mem_keys st.activeUsers sid h]

theorem nodupKeys_disconnect (st : ServerState) (sid : Sid)
    (hnd : (st.activeUsers.map Prod.fst).Nodup) :
    ((step st (.disconnect sid)).1.activeUsers.map Prod.fst).Nodup := by
  show ((disconnect st sid).1.activeUsers.map Prod.fst).Nodup
  unfold disconnect
  by_cases h : dictContains st.activeUsers sid = true
  · rw [if_pos h]
    exact List.Nodup.sublist ((List.filter_sublist _).map Prod.fst) hnd
  · rw [if_neg h]
    exact hnd

theorem run_length_aux (tr : List InEvent) : ∀ st : ServerState,
    (st.activeUsers.map Prod.fst).Nodup → freshConnects st tr = true →
    ((run st tr).1.activeUsers).length + succUnregs st tr =
      st.activeUsers.length + numConnects tr := by
  induction tr with
  | nil =>
    intro st hnd hf
    simp [run, succUnregs, numConnects]
  | cons e tr ih =>
    intro st hnd hf
    cases e with
    | connect sid u now =>
      simp only [freshConnects, Bool.and_eq_true, Bool.not_eq_true] at hf
      obtain ⟨h1, h2⟩ := hf
      have hc : dictContains st.activeUsers sid = false := by simpa using h1
      have hnd2 := nodupKeys_connect st sid u now hc hnd
      have ih2 := ih (step st (.connect sid u now)).1 hnd2 h2
      have hlen : (step st (.connect sid u now)).1.activeUsers.length =
          st.activeUsers.length + 1 := length_dictInsert_fresh _ _ _ hc
      simp only [run, succUnregs, numConnects]
      rw [hlen] at ih2
      omega
    | disconnect sid =>
      simp only [freshConnects] at hf
      have hnd2 := nodupKeys_disconnect st sid hnd
      have ih2 := ih (step st (.disconnect sid)).1 hnd2 hf
      simp only [run, succUnregs, numConnects]
      by_cases hc : dictContains st.activeUsers sid = true
      · have hlen : (step st (.disconnect sid)).1.activeUsers.length + 1 =
            st.activeUsers.length := by
          show (disconnect st sid).1.activeUsers.length + 1 = _
          unfold disconnect
          rw [if_pos hc]
          exact length_dictRemove st.activeUsers sid hc hnd
        rw [hc]
        simp only [if_true]
        omega
      · have hb : dictContains st.activeUsers sid = false := by
          simpa using hc
        have hlen : (step st (.disconnect sid)).1.activeUsers.length =
            st.activeUsers.length := by
          show (disconnect st sid).1.activeUsers.length = _
          unfold disconnect
          rw [if_neg hc]
        rw [hb]
        simp only [Bool.false_eq_true, if_false]
        omega
    | join sid u room now => simp [freshConnects] at hf
    | leave sid u room now => simp [freshConnects] at hf
    | message sid u r ty m tg now => simp [freshConnects] at hf

/-- Counterexample to C5 as stated: two Connect events with the same socket
id both run to completion (each broadcasts a PresenceUpdate — neither
fails), there is no disconnect, yet the registry holds one entry, not two:
the cardinality is not "registers minus unregisters" on such a sequence. -/
theorem duplicate_connect_breaks_count :
    numConnects trDouble = 2 ∧
    succUnregs initialState trDouble = 0 ∧
    ((run initialState trDouble).1.activeUsers).length = 1 ∧
    ((run initialState trDouble).2.filter isPresenceUpdate).length = 2 ∧
    (1 : Nat) ≠ 2 - 0 := by
  decide

/-- C5 (amended): the snapshot always lists exactly the display names of
the currently-registered connections; and over any connect/disconnect
sequence in which every Connect carries a not-currently-registered id (the
guarantee correct transport use provides), the final registry cardinality
equals the number of Connect events minus the number of successful
unregisters. -/
theorem presence_consistency :
    (∀ (m : List (Sid × UserData)) (name : String),
      name ∈ snapshotAllDisplayNames m ↔ ∃ p ∈ m, p.2.username = name) ∧
    (∀ tr : List InEvent, freshConnects initialState tr = true →
      ((run initialState tr).1.activeUsers).length +
        succUnregs initialState tr = numConnects tr) := by
  constructor
  · intro m name
    simp [snapshotAllDisplayNames, List.mem_map]
  · intro tr hf
    have h := run_length_aux tr initialState (by simp [initialState]) hf
    simpa [initialState] using h

/-- Witness for C5 on a concrete fresh connect/disconnect trace. -/
theorem presence_consistency_witness :
    ("A" ∈ snapshotAllDisplayNames [("s", (⟨"A", 0, none⟩ : UserData))] ↔
      ∃ p ∈ [("s", (⟨"A", 0, none⟩ : UserData))], p.2.username = "A") ∧
    freshConnects initialState trPresence = true ∧
    ((run initialState trPresence).1.activeUsers).length +
      succUnregs initialState trPresence = numConnects trPresence :=
  ⟨presence_consistency.1 [("s", (⟨"A", 0, none⟩ : UserData))] "A",
   by decide,
   presence_consistency.2 trPresence (by decide)⟩

end ChommieChat
